import Mathlib

/-!
# Hapto — Timeline Interaction & Waveform Synthesis Engine: a shallow embedding

This file embeds the core of the Hapto haptic-cue editor in Lean 4 and proves
properties of it:

* the cue data model (`src/app/lib/types.ts`): `CueType`, `HapticCue` — the
  TypeScript tagged union `StaticHapticCue | RampHapticCue` is embedded as one
  record carrying both parameter payloads together with the `type` tag; each
  code path reads only the payload fields its tag admits, exactly as the
  TypeScript union does, so the extra fields are never consulted;
* the waveform synthesis engine (`generateWaveformData` and the per-family
  generators).  JavaScript numbers are modelled as real numbers; `Math.random()`
  is modelled by an explicit per-sample oracle `rand : ℕ → ℝ` threaded to the
  one generator that uses it; `Math.pow` on the nonnegative bases the code
  produces is `Real.rpow`; the `%` remainder is `jsMod` (sign of the dividend);
* the view/coordinate model (`timeToPixel` / `pixelToTime` of the Timeline
  component) and the pointer-move update rules of a cue drag gesture
  (`handleMouseMove`);
* the editor-session operations (`handleUpdateCue`, `findAvailableTrack` of
  `handleAddCue`, `handleDeleteSelectedCues` of `hapto-editor.tsx`).
-/

namespace Hapto

/-! ## Cue data model (src/app/lib/types.ts) -/

/-- The closed enumeration of cue kinds (`CueType` in types.ts). -/
inductive CueType
  | rumble_low
  | rumble_high
  | kick_soft
  | kick_hard
  | heartbeat_slow
  | heartbeat_fast
  | pulse
  | explosion
  | ramp_up
  | ramp_down
  deriving DecidableEq, Repr

/-- A haptic cue.  The TypeScript union `StaticHapticCue | RampHapticCue` is
embedded as one wide record: a static cue carries `intensity`/`sharpness`, a
ramp cue the four `_start`/`_end` fields; the tag `type` decides which payload
every consumer reads (via `isRampCue`/`isStaticCue`), so the fields of the
other shape are dead in every code path, just as they are absent in the
TypeScript value. -/
structure HapticCue where
  id : String
  type : CueType
  startTime : ℝ
  duration : ℝ
  track : ℤ
  intensity : ℝ
  sharpness : ℝ
  intensity_start : ℝ
  intensity_end : ℝ
  sharpness_start : ℝ
  sharpness_end : ℝ

/-- Type guard `isRampCue` of types.ts: checks the `type` tag. -/
def isRampCue (cue : HapticCue) : Prop :=
  cue.type = CueType.ramp_up ∨ cue.type = CueType.ramp_down

instance (cue : HapticCue) : Decidable (isRampCue cue) := by
  unfold isRampCue; infer_instance

/-- Type guard `isStaticCue` of types.ts: `!isRampCue(cue)`. -/
def isStaticCue (cue : HapticCue) : Prop := ¬ isRampCue cue

instance (cue : HapticCue) : Decidable (isStaticCue cue) := by
  unfold isStaticCue; infer_instance

/-! ## Waveform synthesis engine (src/app/lib/types.ts, second half)

JavaScript's `Math.random()` is modelled by an oracle `rand : ℕ → ℝ` giving
the value drawn at sample `i`; only the rumble generator consumes it.
`viewBox` is the string `"0 0 ${width} ${height}"` in the code; the embedding
records the determining pair `(width, height)`. -/

/-- A point of the synthesized curve (`WaveformPoint`). -/
structure WaveformPoint where
  x : ℝ
  y : ℝ

/-- The synthesis result (`WaveformData`): the point list, the view box (the
code's string `"0 0 w h"`, recorded as the pair `(w, h)`), and the color. -/
structure WaveformData where
  points : List WaveformPoint
  viewBox : ℝ × ℝ
  color : String

/-- `getWaveformColor` of types.ts. -/
def getWaveformColor (cueType : CueType) : String :=
  match cueType with
  | CueType.rumble_low => "#E0E7FF"
  | CueType.rumble_high => "#F3E8FF"
  | CueType.kick_soft => "#F0F9FF"
  | CueType.kick_hard => "#ECFEFF"
  | CueType.heartbeat_slow => "#FFFBEB"
  | CueType.heartbeat_fast => "#FFF7ED"
  | CueType.pulse => "#F0FDF4"
  | CueType.explosion => "#FEF2F2"
  | CueType.ramp_up => "#F8FAFC"
  | CueType.ramp_down => "#F8FAFC"

/-- `applySharpnessFilter` of types.ts: clamp sharpness to `[0,1]` and bend
the value through a sign-preserving power curve. -/
noncomputable def applySharpnessFilter (value sharpness : ℝ) : ℝ :=
  let sharpnessClamp := max 0 (min 1 sharpness)
  if 0 ≤ value then value ^ (1 - sharpnessClamp * 0.7)
  else -((-value) ^ (1 - sharpnessClamp * 0.7))

/-- JavaScript truncation toward zero (the quotient `Math.trunc(x)`). -/
noncomputable def jsTrunc (x : ℝ) : ℤ := if 0 ≤ x then ⌊x⌋ else ⌈x⌉

/-- The JavaScript `%` remainder: same sign as the dividend. -/
noncomputable def jsMod (a b : ℝ) : ℝ := a - b * jsTrunc (a / b)

/-- The effective scalar intensity every generator computes first:
`isStaticCue(cue) ? cue.intensity : (cue.intensity_start + cue.intensity_end) / 2`. -/
noncomputable def effIntensity (cue : HapticCue) : ℝ :=
  if isStaticCue cue then cue.intensity else (cue.intensity_start + cue.intensity_end) / 2

/-- The effective scalar sharpness, computed like `effIntensity`. -/
noncomputable def effSharpness (cue : HapticCue) : ℝ :=
  if isStaticCue cue then cue.sharpness else (cue.sharpness_start + cue.sharpness_end) / 2

/-- The sampling loop common to every generator: sample `i` of `sampleCount`
sits at `x = (i / (sampleCount - 1)) * width`, with a family-specific `y`. -/
noncomputable def samplePoints (sampleCount : ℕ) (width : ℝ) (y : ℕ → ℝ) :
    List WaveformPoint :=
  (List.range sampleCount).map fun (i : ℕ) =>
    ⟨(i : ℝ) / ((sampleCount : ℝ) - 1) * width, y i⟩

/-- `generateAccurateRumbleWave`: harmonically enriched sine, sharpness-shaped,
with per-sample random jitter. -/
noncomputable def generateAccurateRumbleWave (cue : HapticCue) (width height : ℝ)
    (sampleCount : ℕ) (baseFrequency : ℝ) (color : String) (rand : ℕ → ℝ) :
    WaveformData :=
  let centerY := height / 2
  let intensity := effIntensity cue
  let sharpness := effSharpness cue
  let amplitude := intensity * (height * 0.4)
  let cycleCount : ℤ := max 1 ⌊cue.duration * baseFrequency⌋
  { points := samplePoints sampleCount width fun i =>
      let t := (i : ℝ) / ((sampleCount : ℝ) - 1) * (cycleCount : ℝ) * 2 * Real.pi
      let harmonicIntensity := sharpness * 0.3
      let rawValue := Real.sin t + Real.sin (t * 2) * harmonicIntensity * 0.5
        + Real.sin (t * 3) * harmonicIntensity * 0.25
      let shapedValue := applySharpnessFilter rawValue sharpness
      let randomVariation := (rand i - 0.5) * 0.05 * intensity
      centerY - (shapedValue * amplitude + randomVariation * amplitude)
    viewBox := (width, height)
    color := color }

/-- The `'soft' | 'hard'` parameter of the impact generator. -/
inductive ImpactKind
  | soft
  | hard
  deriving DecidableEq, Repr

/-- `generateAccurateImpactWave`: attack spike followed by exponential decay
with a decaying vibration. -/
noncomputable def generateAccurateImpactWave (cue : HapticCue) (width height : ℝ)
    (sampleCount : ℕ) (kind : ImpactKind) (color : String) : WaveformData :=
  let centerY := height / 2
  let intensity := effIntensity cue
  let sharpness := effSharpness cue
  let amplitude := intensity * (height * 0.45)
  let peakPosition : ℝ := if kind = ImpactKind.hard then 0.15 else 0.25
  let peakWidth : ℝ := if kind = ImpactKind.hard then 0.08 else 0.15
  let decayRate : ℝ := if kind = ImpactKind.hard then 12 else 6
  { points := samplePoints sampleCount width fun i =>
      let t := (i : ℝ) / ((sampleCount : ℝ) - 1)
      if t ≤ peakPosition + peakWidth then
        let distFromPeak := |t - peakPosition|
        if distFromPeak ≤ peakWidth then
          let peakFactor := 1 - distFromPeak / peakWidth
          let spikeValue :=
            applySharpnessFilter (Real.sin (peakFactor * Real.pi * 0.5)) sharpness
          centerY - spikeValue * amplitude
        else centerY
      else
        let decayTime := t - (peakPosition + peakWidth)
        let decayFactor := Real.exp (-(decayTime * decayRate))
        let vibrationFreq := 20 * (1 + sharpness)
        let vibration := Real.sin (decayTime * vibrationFreq * 2 * Real.pi) * 0.1
        centerY - amplitude * 0.2 * decayFactor * (1 + vibration)
    viewBox := (width, height)
    color := color }

/-- `generateAccurateHeartbeatWave`: S1 lobe, S2 lobe, aftershock lobe per
beat period. -/
noncomputable def generateAccurateHeartbeatWave (cue : HapticCue) (width height : ℝ)
    (sampleCount : ℕ) (beatInterval : ℝ) (color : String) : WaveformData :=
  let centerY := height / 2
  let intensity := effIntensity cue
  let sharpness := effSharpness cue
  let amplitude := intensity * (height * 0.4)
  let totalBeats := cue.duration / beatInterval
  { points := samplePoints sampleCount width fun i =>
      let t := (i : ℝ) / ((sampleCount : ℝ) - 1) * totalBeats
      let beatPhase := jsMod t 1
      if beatPhase < 0.12 then
        let s1Phase := beatPhase / 0.12
        let s1Value := applySharpnessFilter (Real.sin (s1Phase * Real.pi)) sharpness
        centerY - s1Value * amplitude * 0.8
      else if 0.18 < beatPhase ∧ beatPhase < 0.28 then
        let s2Phase := (beatPhase - 0.18) / 0.10
        let s2Value := applySharpnessFilter (Real.sin (s2Phase * Real.pi)) sharpness
        centerY - s2Value * amplitude * 0.5
      else if 0.28 < beatPhase ∧ beatPhase < 0.35 then
        let afterPhase := (beatPhase - 0.28) / 0.07
        let afterValue := Real.sin (afterPhase * Real.pi) * 0.15
        centerY - afterValue * amplitude
      else centerY
    viewBox := (width, height)
    color := color }

/-- `generateAccuratePulseWave`: duty-cycled square wave with edge smoothing;
the OFF phase rests at `centerY - amplitude * 0.05`. -/
noncomputable def generateAccuratePulseWave (cue : HapticCue) (width height : ℝ)
    (sampleCount : ℕ) (color : String) : WaveformData :=
  let centerY := height / 2
  let intensity := effIntensity cue
  let sharpness := effSharpness cue
  let amplitude := intensity * (height * 0.4)
  let pulsesPerSecond := 3 + sharpness * 4
  let totalPulses := cue.duration * pulsesPerSecond
  let dutyCycle := 0.3 + sharpness * 0.3
  { points := samplePoints sampleCount width fun i =>
      let t := (i : ℝ) / ((sampleCount : ℝ) - 1) * totalPulses
      let pulsePhase := jsMod t 1
      if pulsePhase < dutyCycle then
        let edgeSmoothing := (1 - sharpness) * 0.1
        let pulseValue :=
          if pulsePhase < edgeSmoothing then pulsePhase / edgeSmoothing
          else if pulsePhase > dutyCycle - edgeSmoothing then
            (dutyCycle - pulsePhase) / edgeSmoothing
          else 1
        centerY - pulseValue * amplitude
      else centerY - amplitude * 0.05
    viewBox := (width, height)
    color := color }

/-- `generateAccurateExplosionWave`: blast lobe, then exponential decay with a
decaying aftershock modulation. -/
noncomputable def generateAccurateExplosionWave (cue : HapticCue) (width height : ℝ)
    (sampleCount : ℕ) (color : String) : WaveformData :=
  let centerY := height / 2
  let intensity := effIntensity cue
  let sharpness := effSharpness cue
  let amplitude := intensity * (height * 0.45)
  let blastDuration := 0.08 + (1 - sharpness) * 0.05
  let decayRate := 4 + sharpness * 8
  let aftershockFreq := 15 + sharpness * 20
  { points := samplePoints sampleCount width fun i =>
      let t := (i : ℝ) / ((sampleCount : ℝ) - 1)
      if t < blastDuration then
        let blastPhase := t / blastDuration
        let blastValue := applySharpnessFilter ((1 - blastPhase) ^ (0.3 : ℝ)) sharpness
        centerY - blastValue * amplitude
      else
        let decayTime := t - blastDuration
        let primaryDecay := Real.exp (-(decayTime * decayRate))
        let aftershockPhase := decayTime * aftershockFreq * 2 * Real.pi
        let aftershock := Real.sin aftershockPhase * Real.exp (-(decayTime * 3)) * 0.3
        let totalDecay := primaryDecay * (1 + aftershock)
        centerY - totalDecay * amplitude * 0.4
    viewBox := (width, height)
    color := color }

/-- `generateAccurateRampWave`: for a ramp cue, per-sample interpolated
intensity/sharpness drive a shaped monotone base curve plus a micro-variation
texture; for `ramp_down` the shaped value is replaced by its complement
(`rampValue = 1 - rampValue`).  For a non-ramp cue, a flat fallback line. -/
noncomputable def generateAccurateRampWave (cue : HapticCue) (width height : ℝ)
    (sampleCount : ℕ) (color : String) : WaveformData :=
  let centerY := height / 2
  if ¬ isRampCue cue then
    let intensity := if isStaticCue cue then cue.intensity else 0.5
    let amplitude := intensity * height * 0.4
    { points := samplePoints sampleCount width fun _ => centerY - amplitude * 0.5
      viewBox := (width, height)
      color := color }
  else
    { points := samplePoints sampleCount width fun i =>
        let t := (i : ℝ) / ((sampleCount : ℝ) - 1)
        let currentIntensity :=
          cue.intensity_start + (cue.intensity_end - cue.intensity_start) * t
        let currentSharpness :=
          cue.sharpness_start + (cue.sharpness_end - cue.sharpness_start) * t
        let amplitude := currentIntensity * (height * 0.45)
        let rampValue :=
          if currentSharpness > 0.5 then
            t ^ (1 - (currentSharpness - 0.5) * 2 * 0.5)
          else
            1 - (1 - t) ^ (1 + (0.5 - currentSharpness) * 2 * 0.5)
        let microFreq := 25 + currentSharpness * 15
        let microVariation := Real.sin (t * microFreq * 2 * Real.pi) * 0.02 * currentIntensity
        let finalRampValue :=
          if cue.type = CueType.ramp_down then 1 - rampValue else rampValue
        centerY - (finalRampValue * amplitude + microVariation * amplitude)
      viewBox := (width, height)
      color := color }

/-- The sample-count formula at the top of `generateWaveformData`:
`Math.max(32, Math.min(512, Math.floor(duration * 60 * Math.sqrt(zoomLevel))))`. -/
noncomputable def sampleCountOf (duration zoomLevel : ℝ) : ℤ :=
  max 32 (min 512 ⌊duration * 60 * Real.sqrt zoomLevel⌋)

/-- `generateWaveformData` of types.ts: compute the sample count, pick the
color, dispatch on the cue type.  The `default` arm of the switch is
unreachable for the closed `CueType` enumeration. -/
noncomputable def generateWaveformData (cue : HapticCue) (width height zoomLevel : ℝ)
    (rand : ℕ → ℝ) : WaveformData :=
  let color := getWaveformColor cue.type
  let sampleCount := (sampleCountOf cue.duration zoomLevel).toNat
  match cue.type with
  | CueType.rumble_low =>
      generateAccurateRumbleWave cue width height sampleCount 2.0 color rand
  | CueType.rumble_high =>
      generateAccurateRumbleWave cue width height sampleCount 8.0 color rand
  | CueType.kick_soft =>
      generateAccurateImpactWave cue width height sampleCount ImpactKind.soft color
  | CueType.kick_hard =>
      generateAccurateImpactWave cue width height sampleCount ImpactKind.hard color
  | CueType.heartbeat_slow =>
      generateAccurateHeartbeatWave cue width height sampleCount 1.2 color
  | CueType.heartbeat_fast =>
      generateAccurateHeartbeatWave cue width height sampleCount 0.6 color
  | CueType.pulse =>
      generateAccuratePulseWave cue width height sampleCount color
  | CueType.explosion =>
      generateAccurateExplosionWave cue width height sampleCount color
  | CueType.ramp_up =>
      generateAccurateRampWave cue width height sampleCount color
  | CueType.ramp_down =>
      generateAccurateRampWave cue width height sampleCount color

/-- The curve-shaping function of the ramp family, as §4.2 of the spec
describes it per interpolated sharpness: exponential-leaning above sharpness
0.5, logarithmic-leaning at or below. -/
noncomputable def rampShapedValue (sharpness t : ℝ) : ℝ :=
  if sharpness > 0.5 then t ^ (1 - (sharpness - 0.5) * 2 * 0.5)
  else 1 - (1 - t) ^ (1 + (0.5 - sharpness) * 2 * 0.5)

/-! ## View/coordinate model (Timeline component)

`timeToPixel` and `pixelToTime` close over the component state
`viewStartTime` and `visibleDuration` and over the measured track-area width
`timelineRef.current.offsetWidth`; the embedding passes the three explicitly.
The code returns 0 when `visibleDuration === 0` (the null-ref guard merges
with it: a missing element also yields 0). -/

/-- `timeToPixel` of the Timeline component. -/
noncomputable def timeToPixel (viewStartTime visibleDuration width time : ℝ) : ℝ :=
  if visibleDuration = 0 then 0
  else (time - viewStartTime) / visibleDuration * width

/-- `pixelToTime` of the Timeline component. -/
noncomputable def pixelToTime (viewStartTime visibleDuration width pixel : ℝ) : ℝ :=
  if visibleDuration = 0 then 0
  else viewStartTime + pixel / width * visibleDuration

/-! ## Cue drag gesture: the pointer-move update rule (Timeline component)

The `useEffect` handling `dragState` computes, on every `mousemove`, a partial
cue patch from the gesture's stored start data and the current pointer
position, and submits it through `onCueUpdate` only when non-empty.  The
embedding `handleMouseMove` returns that patch. -/

/-- The three drag modes of `dragState.type`. -/
inductive DragMode
  | move
  | resizeLeft
  | resizeRight
  deriving DecidableEq, Repr

/-- The gesture state captured at pointer-down (`setDragState` in
`handleCueMouseDown`). -/
structure DragState where
  mode : DragMode
  cueId : String
  startX : ℝ
  startTime : ℝ
  startDuration : ℝ

/-- The partial cue patch a pointer-move produces: `updates` in the code, an
object that may carry a new `startTime` and/or a new `duration`. -/
structure CueMoveUpdates where
  startTime : Option ℝ
  duration : Option ℝ

/-- The empty patch (`updates` left untouched): the code then skips
`onCueUpdate` because `Object.keys(updates).length === 0`. -/
def noUpdates : CueMoveUpdates := ⟨none, none⟩

/-- `handleMouseMove` of the cue-drag effect: from the drag state, the current
view state (`viewStartTime`, `visibleDuration`, track-area `width`), the total
`duration` of the timeline and the pointer position `clientX`, compute the
patch.  Note the code derives `deltaTime` as `pixelToTime(deltaX)`, which adds
`viewStartTime` to the scaled pixel delta. -/
noncomputable def handleMouseMove (ds : DragState)
    (viewStartTime visibleDuration width duration clientX : ℝ) : CueMoveUpdates :=
  let deltaX := clientX - ds.startX
  let deltaTime := pixelToTime viewStartTime visibleDuration width deltaX
  match ds.mode with
  | DragMode.move =>
      { startTime := some (max 0 (min (duration - ds.startDuration) (ds.startTime + deltaTime)))
        duration := none }
  | DragMode.resizeLeft =>
      let newStartTime := max 0 (ds.startTime + deltaTime)
      let newDuration := ds.startDuration - (newStartTime - ds.startTime)
      if newDuration > 0.1 then
        { startTime := some newStartTime, duration := some newDuration }
      else noUpdates
  | DragMode.resizeRight =>
      let newDurationRight := max 0.1 (ds.startDuration + deltaTime)
      if ds.startTime + newDurationRight ≤ duration then
        { startTime := none, duration := some newDurationRight }
      else noUpdates

/-! ## Editor-session cue operations (hapto-editor.tsx) -/

/-- A partial field patch, `Partial<HapticCue>`: every field optional. -/
structure CuePatch where
  id : Option String := none
  type : Option CueType := none
  startTime : Option ℝ := none
  duration : Option ℝ := none
  track : Option ℤ := none
  intensity : Option ℝ := none
  sharpness : Option ℝ := none
  intensity_start : Option ℝ := none
  intensity_end : Option ℝ := none
  sharpness_start : Option ℝ := none
  sharpness_end : Option ℝ := none

/-- The object spread `{ ...cue, ...updates }`: each field present in the
patch overrides the cue's. -/
def applyPatch (cue : HapticCue) (updates : CuePatch) : HapticCue where
  id := updates.id.getD cue.id
  type := updates.type.getD cue.type
  startTime := updates.startTime.getD cue.startTime
  duration := updates.duration.getD cue.duration
  track := updates.track.getD cue.track
  intensity := updates.intensity.getD cue.intensity
  sharpness := updates.sharpness.getD cue.sharpness
  intensity_start := updates.intensity_start.getD cue.intensity_start
  intensity_end := updates.intensity_end.getD cue.intensity_end
  sharpness_start := updates.sharpness_start.getD cue.sharpness_start
  sharpness_end := updates.sharpness_end.getD cue.sharpness_end

/-- `handleUpdateCue` of hapto-editor.tsx, acting on the cue list: maps over
the cues and spreads the patch onto the one with the given id, verbatim. -/
def handleUpdateCue (cues : List HapticCue) (cueId : String) (updates : CuePatch) :
    List HapticCue :=
  cues.map fun cue => if cue.id = cueId then applyPatch cue updates else cue

/-- The conflict test of `findAvailableTrack` in `handleAddCue`: some existing
cue sits on `track` and its closed interval `[startTime, startTime+duration]`
contains the insertion instant. -/
def hasConflictAt (cues : List HapticCue) (time : ℝ) (track : ℤ) : Prop :=
  ∃ cue ∈ cues, cue.track = track ∧ cue.startTime ≤ time ∧ time ≤ cue.startTime + cue.duration

open Classical in
/-- The scan loop of `findAvailableTrack`: starting at `track`, try at most
`fuel` consecutive tracks and return the first conflict-free one. -/
noncomputable def findTrackFrom (cues : List HapticCue) (time : ℝ) :
    ℕ → ℤ → Option ℤ
  | 0, _ => none
  | fuel + 1, track =>
      if hasConflictAt cues time track then findTrackFrom cues time fuel (track + 1)
      else some track

/-- `findAvailableTrack` of `handleAddCue`: scan tracks from `preferredTrack`
while `track < 8`; fall back to `preferredTrack` when every scanned track has
a conflict. -/
noncomputable def findAvailableTrack (cues : List HapticCue) (time : ℝ)
    (preferredTrack : ℤ) : ℤ :=
  (findTrackFrom cues time (8 - preferredTrack).toNat preferredTrack).getD preferredTrack

/-- The editor-session state the delete-selection handler touches: the cue
list, the primary selection and the multi-selection id set (`SelectionState`'s
`marqueeSelection` field is spread through unchanged by the handler and is
omitted). -/
structure EditorState where
  cues : List HapticCue
  selectedCue : Option HapticCue
  selectedCueIds : Finset String

/-- `handleDeleteSelectedCues` of hapto-editor.tsx: no-op when the selection
set is empty (`idsToDelete.size === 0`); otherwise filter out the selected
cues, clear the primary selection and empty the set. -/
def handleDeleteSelectedCues (s : EditorState) : EditorState :=
  if s.selectedCueIds.card = 0 then s
  else
    { cues := s.cues.filter fun cue => decide (cue.id ∉ s.selectedCueIds)
      selectedCue := none
      selectedCueIds := ∅ }

/-! ## Shared lemmas about the sampling loop and the sample count -/

lemma sampleCountOf_lower (duration zoomLevel : ℝ) : 32 ≤ sampleCountOf duration zoomLevel :=
  le_max_left _ _

lemma sampleCountOf_upper (duration zoomLevel : ℝ) : sampleCountOf duration zoomLevel ≤ 512 :=
  max_le (by norm_num) (min_le_left _ _)

lemma samplePoints_length (n : ℕ) (w : ℝ) (f : ℕ → ℝ) :
    (samplePoints n w f).length = n := by
  simp [samplePoints]

lemma samplePoints_getD (n : ℕ) (w : ℝ) (f : ℕ → ℝ) (i : ℕ) (hi : i < n) :
    (samplePoints n w f).getD i ⟨0, 0⟩ = ⟨(i : ℝ) / ((n : ℝ) - 1) * w, f i⟩ := by
  unfold samplePoints
  rw [List.getD_eq_getElem _ _ (by simpa using hi)]
  simp

/-- Every arm of `generateWaveformData`'s dispatch produces its points through
the common sampling loop, at the computed sample count. -/
lemma generateWaveformData_points_shape (cue : HapticCue) (width height zoomLevel : ℝ)
    (rand : ℕ → ℝ) :
    ∃ f, (generateWaveformData cue width height zoomLevel rand).points
      = samplePoints (sampleCountOf cue.duration zoomLevel).toNat width f := by
  obtain ⟨cid, ty, st, du, tr, ci, cs, i0, i1, s0, s1⟩ := cue
  cases ty <;> exact ⟨_, rfl⟩

/-- The point-sequence contract of claim C1, about a synthesis result: the
stated point count, its `[32, 512]` range, non-decreasing `x`, first `x` at 0
and last `x` at the full width. -/
def pointCountAndXSpec (wd : WaveformData) (width : ℝ) (count : ℤ) : Prop :=
  (wd.points.length : ℤ) = count ∧
  32 ≤ wd.points.length ∧
  wd.points.length ≤ 512 ∧
  (∀ i j : ℕ, i ≤ j → j < wd.points.length →
    (wd.points.getD i ⟨0, 0⟩).x ≤ (wd.points.getD j ⟨0, 0⟩).x) ∧
  (wd.points.getD 0 ⟨0, 0⟩).x = 0 ∧
  (wd.points.getD (wd.points.length - 1) ⟨0, 0⟩).x = width

/-- C1: for every haptic cue and all positive width, height and zoom level,
`generateWaveformData` returns `max 32 (min 512 ⌊duration * 60 * √zoomLevel⌋)`
points — hence between 32 and 512 of them — whose `x` coordinates are
monotonically non-decreasing, starting at `x = 0` and ending at `x = width`. -/
theorem generateWaveformData_point_count_and_x
    (cue : HapticCue) (width height zoomLevel : ℝ) (rand : ℕ → ℝ)
    (hw : 0 < width) (_hh : 0 < height) (_hz : 0 < zoomLevel) :
    pointCountAndXSpec (generateWaveformData cue width height zoomLevel rand) width
      (max 32 (min 512 ⌊cue.duration * 60 * Real.sqrt zoomLevel⌋)) := by
  obtain ⟨f, hf⟩ := generateWaveformData_points_shape cue width height zoomLevel rand
  have hlow := sampleCountOf_lower cue.duration zoomLevel
  have hup := sampleCountOf_upper cue.duration zoomLevel
  set n := (sampleCountOf cue.duration zoomLevel).toNat with hn
  have hn32 : 32 ≤ n := by omega
  have hn512 : n ≤ 512 := by omega
  have hnR : (32 : ℝ) ≤ (n : ℝ) := by exact_mod_cast hn32
  have hpos : (0 : ℝ) < (n : ℝ) - 1 := by linarith
  unfold pointCountAndXSpec
  rw [hf, samplePoints_length]
  refine ⟨?_, hn32, hn512, ?_, ?_, ?_⟩
  · show (n : ℤ) = sampleCountOf cue.duration zoomLevel
    exact Int.toNat_of_nonneg (by omega)
  · intro i j hij hj
    rw [samplePoints_getD _ _ _ i (lt_of_le_of_lt hij hj), samplePoints_getD _ _ _ j hj]
    exact mul_le_mul_of_nonneg_right
      ((div_le_div_iff_of_pos_right hpos).2 (by exact_mod_cast hij)) hw.le
  · rw [samplePoints_getD _ _ _ 0 (by omega)]
    simp
  · rw [samplePoints_getD _ _ _ (n - 1) (by omega)]
    show ((n - 1 : ℕ) : ℝ) / ((n : ℝ) - 1) * width = width
    rw [Nat.cast_sub (by omega : 1 ≤ n), Nat.cast_one, div_self (ne_of_gt hpos), one_mul]

/-- A concrete static cue used to instantiate C1's theorem. -/
def c1cue : HapticCue :=
  { id := "c1", type := CueType.kick_soft, startTime := 2, duration := 0.5, track := 0
    intensity := 0.8, sharpness := 0.5
    intensity_start := 0, intensity_end := 0, sharpness_start := 0, sharpness_end := 0 }

/-- Witness for C1: the theorem instantiated at a concrete kick cue and
concrete positive width, height and zoom level. -/
theorem generateWaveformData_point_count_and_x_witness :
    pointCountAndXSpec (generateWaveformData c1cue 100 32 1 fun _ => 0) 100
      (max 32 (min 512 ⌊c1cue.duration * 60 * Real.sqrt 1⌋)) :=
  generateWaveformData_point_count_and_x c1cue 100 32 1 (fun _ => 0)
    (by norm_num) (by norm_num) (by norm_num)

/-- C2: with a positive visible duration and a positive timeline width,
`timeToPixel` is the affine map `(t - viewStartTime) / visibleDuration * width`
and `pixelToTime` inverts it exactly in real arithmetic. -/
theorem pixelToTime_timeToPixel_roundtrip
    (viewStartTime visibleDuration width t : ℝ)
    (hvd : 0 < visibleDuration) (hw : 0 < width) :
    timeToPixel viewStartTime visibleDuration width t
        = (t - viewStartTime) / visibleDuration * width ∧
    pixelToTime viewStartTime visibleDuration width
        (timeToPixel viewStartTime visibleDuration width t) = t := by
  unfold timeToPixel pixelToTime
  rw [if_neg (ne_of_gt hvd), if_neg (ne_of_gt hvd)]
  constructor
  · rfl
  · field_simp
    ring

/-- Witness for C2: the round trip at `viewStartTime = 3`,
`visibleDuration = 20`, `width = 800`, `t = 7`. -/
theorem pixelToTime_timeToPixel_roundtrip_witness :
    timeToPixel 3 20 800 7 = (7 - 3) / 20 * 800 ∧
    pixelToTime 3 20 800 (timeToPixel 3 20 800 7) = 7 :=
  pixelToTime_timeToPixel_roundtrip 3 20 800 7 (by norm_num) (by norm_num)

/-- C3 (code evaluation at the failing input): the pointer-move rule of a
move drag computes `deltaTime = pixelToTime(deltaX)`, which adds the current
`viewStartTime` to the scaled pixel delta.  With `viewStartTime = 5`,
`visibleDuration = 10`, `width = 100`, `totalDuration = 20`, a cue at
`startTime = 0` with `startDuration = 1`, and the pointer still at its
starting x (`deltaX = 0`), the code moves the cue to `startTime = 5`, while
the pan-independent mapping `Δt = deltaX * visibleDuration / width` would
leave it at 0. -/
theorem handleMouseMove_move_adds_viewStartTime :
    (handleMouseMove ⟨DragMode.move, "c3", 100, 0, 1⟩ 5 10 100 20 100).startTime
        = some 5 ∧
    max 0 (min ((20 : ℝ) - 1) (0 + (100 - 100) * (10 / 100))) = (0 : ℝ) ∧
    (5 : ℝ) ≠ (0 : ℝ) := by
  refine ⟨?_, by norm_num, by norm_num⟩
  show some (max 0 (min ((20 : ℝ) - 1) (0 + pixelToTime 5 10 100 (100 - 100)))) = some 5
  rw [pixelToTime, if_neg (by norm_num : (10 : ℝ) ≠ 0)]
  norm_num

/-- C4: every resize-gesture pointer-move update either leaves the cue
unchanged (the empty patch) or, for resize-left, applies
`startTime' = max 0 (startTime + Δt)` and
`duration' = startDuration - (startTime' - startTime)` with `duration' > 0.1`,
and, for resize-right, applies `duration' = max 0.1 (startDuration + Δt)` only
when `startTime + duration' ≤ totalDuration`. -/
theorem handleMouseMove_resize_invariants
    (ds : DragState) (viewStartTime visibleDuration width duration clientX : ℝ) :
    (ds.mode = DragMode.resizeLeft →
      handleMouseMove ds viewStartTime visibleDuration width duration clientX
          = noUpdates ∨
        ∃ st d,
          handleMouseMove ds viewStartTime visibleDuration width duration clientX
              = ⟨some st, some d⟩ ∧
          st = max 0 (ds.startTime
              + pixelToTime viewStartTime visibleDuration width (clientX - ds.startX)) ∧
          d = ds.startDuration - (st - ds.startTime) ∧
          (0.1 : ℝ) < d) ∧
    (ds.mode = DragMode.resizeRight →
      handleMouseMove ds viewStartTime visibleDuration width duration clientX
          = noUpdates ∨
        ∃ d,
          handleMouseMove ds viewStartTime visibleDuration width duration clientX
              = ⟨none, some d⟩ ∧
          d = max 0.1 (ds.startDuration
              + pixelToTime viewStartTime visibleDuration width (clientX - ds.startX)) ∧
          ds.startTime + d ≤ duration) := by
  obtain ⟨mode, cueId, startX, startTime, startDuration⟩ := ds
  constructor
  · intro hmode
    cases hmode
    unfold handleMouseMove
    dsimp only
    split_ifs with hd
    · exact Or.inr ⟨_, _, rfl, rfl, rfl, hd⟩
    · exact Or.inl rfl
  · intro hmode
    cases hmode
    unfold handleMouseMove
    dsimp only
    split_ifs with hd
    · exact Or.inr ⟨_, rfl, rfl, hd⟩
    · exact Or.inl rfl

/-- Witness for C4: a concrete resize-left pointer-move (no pointer movement,
so `Δt = pixelToTime 0 = viewStartTime = 0` here) on a cue with
`startTime = 1`, `startDuration = 2`. -/
theorem handleMouseMove_resize_invariants_witness :
    handleMouseMove ⟨DragMode.resizeLeft, "c4", 0, 1, 2⟩ 0 10 100 20 0 = noUpdates ∨
      ∃ st d,
        handleMouseMove ⟨DragMode.resizeLeft, "c4", 0, 1, 2⟩ 0 10 100 20 0
            = ⟨some st, some d⟩ ∧
        st = max 0 (1 + pixelToTime 0 10 100 (0 - 0)) ∧
        d = 2 - (st - 1) ∧
        (0.1 : ℝ) < d :=
  (handleMouseMove_resize_invariants ⟨DragMode.resizeLeft, "c4", 0, 1, 2⟩
    0 10 100 20 0).1 rfl

/-- The concrete cue used for C5's failing input. -/
def c5cue : HapticCue :=
  { id := "c5", type := CueType.pulse, startTime := 1, duration := 0.5, track := 0
    intensity := 0.8, sharpness := 0.5
    intensity_start := 0, intensity_end := 0, sharpness_start := 0, sharpness_end := 0 }

/-- C5 (code evaluation at the failing input): `handleUpdateCue` spreads any
patch verbatim, so a patch carrying `duration = -1` leaves the stored cue with
`duration = -1 ≤ 0`, and a patch carrying `startTime = -2` leaves it with
`startTime = -2 < 0`; nothing is rejected or clamped. -/
theorem handleUpdateCue_applies_invalid_patch :
    handleUpdateCue [c5cue] "c5" { duration := some (-1) }
        = [{ c5cue with duration := -1 }] ∧
    ({ c5cue with duration := -1 } : HapticCue).duration ≤ 0 ∧
    handleUpdateCue [c5cue] "c5" { startTime := some (-2) }
        = [{ c5cue with startTime := -2 }] ∧
    ({ c5cue with startTime := -2 } : HapticCue).startTime < 0 := by
  refine ⟨?_, by norm_num, ?_, by norm_num⟩ <;> rfl

/-! ## Track assignment (C6) -/

lemma findTrackFrom_eq_none (cues : List HapticCue) (time : ℝ) :
    ∀ (fuel : ℕ) (track : ℤ),
      (∀ j : ℤ, track ≤ j → j < track + (fuel : ℤ) → hasConflictAt cues time j) →
      findTrackFrom cues time fuel track = none := by
  intro fuel
  induction fuel with
  | zero => intro track _; rfl
  | succ m ih =>
      intro track hall
      have hc : hasConflictAt cues time track := hall track le_rfl (by push_cast; omega)
      simp only [findTrackFrom]
      rw [if_pos hc]
      exact ih (track + 1) fun j h1 h2 => hall j (by omega) (by push_cast at h2 ⊢; omega)

lemma findTrackFrom_eq_some (cues : List HapticCue) (time : ℝ) :
    ∀ (fuel : ℕ) (track k : ℤ), track ≤ k → k < track + (fuel : ℤ) →
      ¬ hasConflictAt cues time k →
      (∀ j : ℤ, track ≤ j → j < k → hasConflictAt cues time j) →
      findTrackFrom cues time fuel track = some k := by
  intro fuel
  induction fuel with
  | zero => intro track k h1 h2 _ _; exfalso; push_cast at h2; omega
  | succ m ih =>
      intro track k h1 h2 hfree hconf
      by_cases hc : hasConflictAt cues time track
      · have hne : track ≠ k := by rintro rfl; exact hfree hc
        simp only [findTrackFrom]
        rw [if_pos hc]
        exact ih (track + 1) k (by omega) (by push_cast at h2 ⊢; omega) hfree
          fun j hj1 hj2 => hconf j (by omega) hj2
      · have heq : track = k := by
          by_contra hne
          exact hc (hconf track le_rfl (lt_of_le_of_ne h1 hne))
        simp only [findTrackFrom]
        rw [if_neg hc, heq]

/-- The concrete occupying cue of C6's scenario: a cue on track 0 covering
`[0, 1]`. -/
def c6occupied : HapticCue :=
  { id := "c6a", type := CueType.rumble_low, startTime := 0, duration := 1, track := 0
    intensity := 0.8, sharpness := 0.5
    intensity_start := 0, intensity_end := 0, sharpness_start := 0, sharpness_end := 0 }

/-- C6: insertion without an explicit target track scans tracks 0 upward and
picks the first one with no cue whose closed interval `[startTime,
startTime + duration]` contains the insertion instant, falling back to track 0
when all 8 are occupied there; in particular, with track 0 occupied at
`t = 0.5` by a cue covering `[0, 1]` and track 1 free, insertion at `t = 0.5`
lands on track 1. -/
theorem findAvailableTrack_first_free (cues : List HapticCue) (t : ℝ) :
    ((∀ k : ℤ, 0 ≤ k → k < 8 → hasConflictAt cues t k) →
      findAvailableTrack cues t 0 = 0) ∧
    (∀ k : ℤ, 0 ≤ k → k < 8 → ¬ hasConflictAt cues t k →
      (∀ j : ℤ, 0 ≤ j → j < k → hasConflictAt cues t j) →
      findAvailableTrack cues t 0 = k) ∧
    findAvailableTrack [c6occupied] (1 / 2) 0 = 1 := by
  have hfuel : ((8 : ℤ) - 0).toNat = 8 := by decide
  refine ⟨?_, ?_, ?_⟩
  · intro hall
    unfold findAvailableTrack
    rw [hfuel, findTrackFrom_eq_none cues t 8 0 (by intro j h1 h2; exact hall j h1 (by omega))]
    rfl
  · intro k hk0 hk8 hfree hconf
    unfold findAvailableTrack
    rw [hfuel, findTrackFrom_eq_some cues t 8 0 k hk0 (by push_cast; omega) hfree
      fun j h1 h2 => hconf j h1 h2]
    rfl
  · unfold findAvailableTrack
    rw [hfuel, findTrackFrom_eq_some [c6occupied] (1 / 2) 8 0 1 (by omega)
      (by norm_num) ?free ?conf]
    · rfl
    case free =>
      rintro ⟨c, hc, htr, -, -⟩
      simp only [List.mem_singleton] at hc
      subst hc
      exact absurd htr (by simp [c6occupied])
    case conf =>
      intro j h1 h2
      have : j = 0 := by omega
      subst this
      exact ⟨c6occupied, List.mem_singleton_self _, rfl, by norm_num [c6occupied],
        by norm_num [c6occupied]⟩

/-- Witness for C6: the first-free-track rule applied at the scenario input —
on the one-cue list, track 1 is free at `t = 0.5` and track 0 conflicts, so
the scan returns 1. -/
theorem findAvailableTrack_first_free_witness :
    findAvailableTrack [c6occupied] (1 / 2) 0 = 1 :=
  (findAvailableTrack_first_free [c6occupied] (1 / 2)).2.2

/-! ## Delete-selection handler (C10) -/

/-- C10: `handleDeleteSelectedCues` removes exactly the cues whose ids are in
the selection set — the surviving cue list is a sublist of the original (so
the remaining cues keep all fields and their relative order) and a cue of the
original list survives iff its id is not selected — clears the primary
selection and the set when the set was non-empty, and leaves the whole state
unchanged when the set is empty. -/
theorem handleDeleteSelectedCues_spec (s : EditorState) :
    (s.selectedCueIds = ∅ → handleDeleteSelectedCues s = s) ∧
    (handleDeleteSelectedCues s).cues.Sublist s.cues ∧
    (∀ cue ∈ s.cues,
      cue ∈ (handleDeleteSelectedCues s).cues ↔ cue.id ∉ s.selectedCueIds) ∧
    (s.selectedCueIds ≠ ∅ →
      (handleDeleteSelectedCues s).selectedCue = none ∧
      (handleDeleteSelectedCues s).selectedCueIds = ∅) := by
  unfold handleDeleteSelectedCues
  by_cases hcard : s.selectedCueIds.card = 0
  · have hempty : s.selectedCueIds = ∅ := Finset.card_eq_zero.mp hcard
    rw [if_pos hcard]
    refine ⟨fun _ => rfl, List.Sublist.refl _, ?_, fun hne => absurd hempty hne⟩
    intro cue hcue
    simp [hempty, hcue]
  · have hne : s.selectedCueIds ≠ ∅ := fun h => hcard (by rw [h]; rfl)
    rw [if_neg hcard]
    refine ⟨fun h => absurd h hne, List.filter_sublist _, ?_, fun _ => ⟨rfl, rfl⟩⟩
    intro cue hcue
    constructor
    · intro hmem
      have := (List.mem_filter.mp hmem).2
      simpa using this
    · intro hnot
      exact List.mem_filter.mpr ⟨hcue, by simpa using hnot⟩

/-- Witness for C10: the handler applied to a concrete two-cue state with cue
`"c5"` selected deletes exactly that cue. -/
theorem handleDeleteSelectedCues_spec_witness :
    c1cue ∈ (handleDeleteSelectedCues
        ⟨[c1cue, c5cue], some c5cue, {"c5"}⟩).cues ↔ c1cue.id ∉ ({"c5"} : Finset String) :=
  ((handleDeleteSelectedCues_spec ⟨[c1cue, c5cue], some c5cue, {"c5"}⟩).2.2.1
    c1cue (by simp))

/-! ## Pulse OFF phase (C9) -/

/-- C9: for a pulse cue, every sample that falls in the OFF phase of its duty
cycle (the fractional pulse phase at or past the duty cycle) has
`y = centerY - 0.05 * amplitude`, `amplitude = intensity * 0.4 * height` — so
for positive intensity the curve stays strictly above the center line between
pulses. -/
theorem generateWaveformData_pulse_off_phase
    (cue : HapticCue) (width height zoomLevel : ℝ) (rand : ℕ → ℝ) (i : ℕ)
    (htype : cue.type = CueType.pulse)
    (hi : i < (sampleCountOf cue.duration zoomLevel).toNat)
    (hoff : ¬ (jsMod ((i : ℝ) / (((sampleCountOf cue.duration zoomLevel).toNat : ℝ) - 1)
        * (cue.duration * (3 + cue.sharpness * 4))) 1 < 0.3 + cue.sharpness * 0.3))
    (hint : 0 < cue.intensity) (hh : 0 < height) :
    ((generateWaveformData cue width height zoomLevel rand).points.getD i ⟨0, 0⟩).y
        = height / 2 - cue.intensity * (0.4 * height) * 0.05 ∧
    ((generateWaveformData cue width height zoomLevel rand).points.getD i ⟨0, 0⟩).y
        < height / 2 := by
  have hstatic : isStaticCue cue := by simp [isStaticCue, isRampCue, htype]
  have hI : effIntensity cue = cue.intensity := if_pos hstatic
  have hS : effSharpness cue = cue.sharpness := if_pos hstatic
  have hdisp : generateWaveformData cue width height zoomLevel rand
      = generateAccuratePulseWave cue width height
          (sampleCountOf cue.duration zoomLevel).toNat "#F0FDF4" := by
    unfold generateWaveformData
    rw [htype]
    rfl
  have hy : ((generateWaveformData cue width height zoomLevel rand).points.getD i
      ⟨0, 0⟩).y = height / 2 - cue.intensity * (height * 0.4) * 0.05 := by
    rw [hdisp]
    unfold generateAccuratePulseWave
    dsimp only
    rw [samplePoints_getD _ _ _ i hi]
    dsimp only
    rw [hI, hS, if_neg hoff]
  refine ⟨by rw [hy]; ring, by rw [hy]; nlinarith⟩

/-- The computed sample count at duration 1 and zoom level 1 is 60. -/
lemma sampleCountOf_one_one : (sampleCountOf 1 1).toNat = 60 := by
  unfold sampleCountOf
  rw [Real.sqrt_one]
  rw [show ((1 : ℝ) * 60 * 1) = ((60 : ℤ) : ℝ) by norm_num, Int.floor_intCast]
  decide

/-- The concrete pulse cue of C9's witness. -/
def c9cue : HapticCue :=
  { id := "c9", type := CueType.pulse, startTime := 0, duration := 1, track := 0
    intensity := 0.8, sharpness := 0.5
    intensity_start := 0, intensity_end := 0, sharpness_start := 0, sharpness_end := 0 }

/-- Witness for C9: sample 6 of the 60-sample synthesis of a one-second pulse
cue with sharpness 0.5 has pulse phase `30/59 ≥ 0.45`, i.e. lies in the OFF
phase. -/
theorem generateWaveformData_pulse_off_phase_witness :
    ((generateWaveformData c9cue 100 32 1 fun _ => 0).points.getD 6 ⟨0, 0⟩).y
        = 32 / 2 - c9cue.intensity * (0.4 * 32) * 0.05 ∧
    ((generateWaveformData c9cue 100 32 1 fun _ => 0).points.getD 6 ⟨0, 0⟩).y
        < 32 / 2 :=
  generateWaveformData_pulse_off_phase c9cue 100 32 1 (fun _ => 0) 6 rfl
    (by show 6 < (sampleCountOf 1 1).toNat
        rw [sampleCountOf_one_one]; norm_num)
    (by
      have h60 : (((sampleCountOf c9cue.duration 1).toNat : ℕ) : ℝ) = 60 := by
        show (((sampleCountOf 1 1).toNat : ℕ) : ℝ) = 60
        rw [sampleCountOf_one_one]; norm_num
      rw [h60, show c9cue.duration = (1 : ℝ) from rfl,
        show c9cue.sharpness = (0.5 : ℝ) from rfl,
        show ((6 : ℕ) : ℝ) / (60 - 1) * (1 * (3 + 0.5 * 4)) = 30 / 59 by
          push_cast; norm_num]
      have hmod : jsMod (30 / 59 : ℝ) 1 = 30 / 59 := by
        unfold jsMod jsTrunc
        rw [if_pos (by norm_num : (0 : ℝ) ≤ 30 / 59 / 1), div_one,
          show ⌊(30 / 59 : ℝ)⌋ = 0 from
            Int.floor_eq_zero_iff.mpr (Set.mem_Ico.mpr ⟨by norm_num, by norm_num⟩)]
        norm_num
      rw [hmod]
      norm_num)
    (by norm_num [c9cue]) (by norm_num)

/-! ## Determinism outside the rumble family (C8) -/

/-- The concrete rumble cue witnessing that the rumble family consumes the
random oracle. -/
def c8rumble : HapticCue :=
  { id := "c8", type := CueType.rumble_low, startTime := 0, duration := 1, track := 0
    intensity := 1, sharpness := 0
    intensity_start := 0, intensity_end := 0, sharpness_start := 0, sharpness_end := 0 }

/-- C8: for every cue whose kind is neither `rumble_low` nor `rumble_high`,
`generateWaveformData` does not consult the random oracle — two runs with
equal cue, width, height and zoom level give identical results — while a
rumble cue's output does depend on the oracle, so its re-synthesis need not be
byte-identical. -/
theorem generateWaveformData_deterministic_except_rumble :
    (∀ (cue : HapticCue) (width height zoomLevel : ℝ) (r₁ r₂ : ℕ → ℝ),
      cue.type ≠ CueType.rumble_low → cue.type ≠ CueType.rumble_high →
      generateWaveformData cue width height zoomLevel r₁
        = generateWaveformData cue width height zoomLevel r₂) ∧
    generateWaveformData c8rumble 4 2 1 (fun _ => 0)
      ≠ generateWaveformData c8rumble 4 2 1 (fun _ => 1 / 2) := by
  constructor
  · intro cue width height zoomLevel r₁ r₂ hlow hhigh
    obtain ⟨cid, ty, st, du, tr, ci, cs, i0, i1, s0, s1⟩ := cue
    cases ty
    · exact absurd rfl hlow
    · exact absurd rfl hhigh
    all_goals rfl
  · intro heq
    have h60 : (sampleCountOf c8rumble.duration 1).toNat = 60 := sampleCountOf_one_one
    have hdisp : ∀ r : ℕ → ℝ, generateWaveformData c8rumble 4 2 1 r
        = generateAccurateRumbleWave c8rumble 4 2 60 2.0 "#E0E7FF" r := by
      intro r
      unfold generateWaveformData
      rw [show c8rumble.type = CueType.rumble_low from rfl, h60]
      rfl
    have h0 : ((generateWaveformData c8rumble 4 2 1 (fun _ => 0)).points.getD 0
          ⟨0, 0⟩).y
        = ((generateWaveformData c8rumble 4 2 1 (fun _ => 1 / 2)).points.getD 0
          ⟨0, 0⟩).y := by
      rw [heq]
    rw [hdisp, hdisp] at h0
    unfold generateAccurateRumbleWave at h0
    dsimp only at h0
    rw [samplePoints_getD _ _ _ 0 (by norm_num)] at h0
    rw [samplePoints_getD _ _ _ 0 (by norm_num)] at h0
    dsimp only at h0
    have hI : effIntensity c8rumble = 1 := by
      simp [effIntensity, isStaticCue, isRampCue, c8rumble]
    rw [hI] at h0
    linarith [h0]

/-- Witness for C8: the determinism half applied at a concrete pulse cue (a
kind outside the rumble family) and two distinct oracles. -/
theorem generateWaveformData_deterministic_except_rumble_witness :
    generateWaveformData c5cue 100 32 1 (fun _ => 0)
      = generateWaveformData c5cue 100 32 1 (fun _ => 1 / 2) :=
  generateWaveformData_deterministic_except_rumble.1 c5cue 100 32 1
    (fun _ => 0) (fun _ => 1 / 2) (by decide) (by decide)

/-! ## Ramp-down curve shaping (C7) -/

/-- The per-sample interpolated intensity of a ramp cue:
`intensity_start + (intensity_end - intensity_start) * t`. -/
noncomputable def rampIntensityAt (cue : HapticCue) (t : ℝ) : ℝ :=
  cue.intensity_start + (cue.intensity_end - cue.intensity_start) * t

/-- The per-sample interpolated sharpness of a ramp cue. -/
noncomputable def rampSharpnessAt (cue : HapticCue) (t : ℝ) : ℝ :=
  cue.sharpness_start + (cue.sharpness_end - cue.sharpness_start) * t

/-- The micro-variation texture term of the ramp generator at progress `t`. -/
noncomputable def rampMicroVariation (cue : HapticCue) (t : ℝ) : ℝ :=
  Real.sin (t * (25 + rampSharpnessAt cue t * 15) * 2 * Real.pi) * 0.02
    * rampIntensityAt cue t

/-- C7 (amended): for every `ramp_down` cue, the ramp generator inverts the
curve value after shaping — sample `i` at progress `t = i/(n-1)` has
`y = centerY - ((1 - shape(s(t), t)) · amplitude + micro(t) · amplitude)`,
with intensity and sharpness interpolated at `t`; the progress variable fed
to the shaping function is `t` itself, not `1 - t`. -/
theorem generateAccurateRampWave_ramp_down_inverts_value
    (cue : HapticCue) (width height : ℝ) (sampleCount : ℕ) (color : String) (i : ℕ)
    (htype : cue.type = CueType.ramp_down) (hi : i < sampleCount) :
    ((generateAccurateRampWave cue width height sampleCount color).points.getD i
        ⟨0, 0⟩).y
      = height / 2 -
        ((1 - rampShapedValue
              (rampSharpnessAt cue ((i : ℝ) / ((sampleCount : ℝ) - 1)))
              ((i : ℝ) / ((sampleCount : ℝ) - 1)))
            * (rampIntensityAt cue ((i : ℝ) / ((sampleCount : ℝ) - 1)) * (height * 0.45))
          + rampMicroVariation cue ((i : ℝ) / ((sampleCount : ℝ) - 1))
            * (rampIntensityAt cue ((i : ℝ) / ((sampleCount : ℝ) - 1))
              * (height * 0.45))) := by
  have hramp : isRampCue cue := Or.inr htype
  unfold generateAccurateRampWave
  rw [if_neg (not_not_intro hramp)]
  dsimp only
  rw [samplePoints_getD _ _ _ i hi]
  dsimp only
  rw [if_pos htype]
  unfold rampShapedValue rampSharpnessAt rampIntensityAt rampMicroVariation
  rfl

/-- The concrete `ramp_down` cue of C7: constant interpolated intensity 1 and
sharpness 1. -/
def c7cue : HapticCue :=
  { id := "c7", type := CueType.ramp_down, startTime := 0, duration := 2, track := 0
    intensity := 0, sharpness := 0
    intensity_start := 1, intensity_end := 1, sharpness_start := 1, sharpness_end := 1 }

/-- Witness for C7's amended theorem: the decomposition at sample 1 of a
5-sample synthesis of `c7cue`. -/
theorem generateAccurateRampWave_ramp_down_inverts_value_witness :
    ((generateAccurateRampWave c7cue 4 2 5 "#F8FAFC").points.getD 1 ⟨0, 0⟩).y
      = 2 / 2 -
        ((1 - rampShapedValue
              (rampSharpnessAt c7cue (((1 : ℕ) : ℝ) / (((5 : ℕ) : ℝ) - 1)))
              (((1 : ℕ) : ℝ) / (((5 : ℕ) : ℝ) - 1)))
            * (rampIntensityAt c7cue (((1 : ℕ) : ℝ) / (((5 : ℕ) : ℝ) - 1)) * (2 * 0.45))
          + rampMicroVariation c7cue (((1 : ℕ) : ℝ) / (((5 : ℕ) : ℝ) - 1))
            * (rampIntensityAt c7cue (((1 : ℕ) : ℝ) / (((5 : ℕ) : ℝ) - 1))
              * (2 * 0.45))) :=
  generateAccurateRampWave_ramp_down_inverts_value c7cue 4 2 5 "#F8FAFC" 1 rfl
    (by norm_num)

/-- The square root of `1/4` is `1/2`. -/
lemma sqrt_one_quarter : Real.sqrt (1 / 4) = 1 / 2 := by
  rw [show (1 / 4 : ℝ) = (1 / 2) ^ 2 by norm_num,
    Real.sqrt_sq (by norm_num : (0 : ℝ) ≤ 1 / 2)]

/-- The shaping curve at sharpness 1 and progress `1 - 1/4` is `√3 / 2`. -/
lemma rampShapedValue_three_quarters : rampShapedValue 1 (1 - 1 / 4) = Real.sqrt 3 / 2 := by
  unfold rampShapedValue
  rw [if_pos (by norm_num : (1 : ℝ) > 0.5),
    show (1 : ℝ) - ((1 : ℝ) - 0.5) * 2 * 0.5 = 1 / 2 by norm_num,
    ← Real.sqrt_eq_rpow,
    show (1 - 1 / 4 : ℝ) = 3 * (1 / 4) by norm_num,
    Real.sqrt_mul (by norm_num : (0 : ℝ) ≤ 3), sqrt_one_quarter]
  ring

/-- C7 (counterexample): at sample 1 of a 5-sample synthesis of the
`ramp_down` cue with constant intensity 1 and sharpness 1 — progress
`t = 1/4` — the synthesized `y` does not equal the value predicted by
shaping the inverted progress `1 - t` (with intensity, sharpness and the
micro-variation still taken at `t`): the code yields base value
`1 - √(1/4) = 1/2`, the claim's reading `√(3/4) = √3/2`. -/
theorem generateAccurateRampWave_ramp_down_progress_inversion_false :
    ((generateAccurateRampWave c7cue 4 2 5 "#F8FAFC").points.getD 1 ⟨0, 0⟩).y
      ≠ 2 / 2 -
        (rampShapedValue (rampSharpnessAt c7cue (1 / 4)) (1 - 1 / 4)
            * (rampIntensityAt c7cue (1 / 4) * (2 * 0.45))
          + rampMicroVariation c7cue (1 / 4)
            * (rampIntensityAt c7cue (1 / 4) * (2 * 0.45))) := by
  intro heq
  have hramp : isRampCue c7cue := Or.inr rfl
  unfold generateAccurateRampWave at heq
  rw [if_neg (not_not_intro hramp)] at heq
  dsimp only at heq
  rw [samplePoints_getD _ _ _ 1 (by norm_num)] at heq
  dsimp only at heq
  have htype : c7cue.type = CueType.ramp_down := rfl
  rw [if_pos htype] at heq
  rw [show ((1 : ℕ) : ℝ) / (((5 : ℕ) : ℝ) - 1) = (1 / 4 : ℝ) by push_cast; norm_num] at heq
  rw [show rampSharpnessAt c7cue (1 / 4) = 1 by simp [rampSharpnessAt, c7cue],
    show rampIntensityAt c7cue (1 / 4) = 1 by simp [rampIntensityAt, c7cue],
    rampShapedValue_three_quarters] at heq
  rw [show c7cue.sharpness_start + (c7cue.sharpness_end - c7cue.sharpness_start)
        * (1 / 4 : ℝ) = 1 by simp [c7cue],
    show c7cue.intensity_start + (c7cue.intensity_end - c7cue.intensity_start)
        * (1 / 4 : ℝ) = 1 by simp [c7cue]] at heq
  rw [if_pos (by norm_num : (1 : ℝ) > 0.5),
    show (1 : ℝ) - ((1 : ℝ) - 0.5) * 2 * 0.5 = 1 / 2 by norm_num,
    ← Real.sqrt_eq_rpow, sqrt_one_quarter] at heq
  rw [show rampMicroVariation c7cue (1 / 4)
      = Real.sin ((1 / 4 : ℝ) * (25 + 1 * 15) * 2 * Real.pi) * 0.02 * 1 by
    unfold rampMicroVariation
    rw [show rampSharpnessAt c7cue (1 / 4) = 1 by simp [rampSharpnessAt, c7cue],
      show rampIntensityAt c7cue (1 / 4) = 1 by simp [rampIntensityAt, c7cue]]] at heq
  have h3gt : (1 : ℝ) < Real.sqrt 3 := by
    have h := Real.sqrt_lt_sqrt (by norm_num : (0 : ℝ) ≤ 1) (by norm_num : (1 : ℝ) < 3)
    simpa using h
  ring_nf at heq
  nlinarith [heq, h3gt]

end Hapto
